import Mathlib

/-!
Verification development for the DbRheo database-agent core.

The definitions below are a shallow embedding, translated from the Python
sources of the repository:
  * `packages/core/src/dbrheo/tools/risk_evaluator.py` (DatabaseRiskEvaluator)
  * `packages/core/src/dbrheo/core/token_statistics.py` (TokenStatistics)
  * `packages/core/src/dbrheo/services/{gemini,openai,claude}_service.py`
  * `packages/cli/src/dbrheo_cli/app/cli.py` (`_continue_after_confirmation`)

Modelling conventions, used throughout:
  * Python strings are Lean `String`s; character-level work is done on
    `List Char`.  Case folding / whitespace tests follow the ASCII fragment
    of Python's semantics (all pattern literals are ASCII).
  * Python `re.search(pattern, s, re.IGNORECASE)` truthiness is embedded by
    an existential backtracking matcher over a small regex item language
    covering exactly the constructs the hard-coded patterns use
    (literals, `\b`, `\s+`, `\s*`, `\w+`, lazy `.*?`, `(?!...)`).
  * Risk scores are integer-valued in the source (all weights are multiples
    of 0.1 scaled by 10, all increments are integers), so scores are `Nat`.
  * JSON payloads that are only carried around (tool-call `args`,
    tool-response bodies) are opaque `String`s standing for their
    serialized form.
-/

/-- ASCII lower-casing of a character (the pattern alphabet is ASCII),
written as an explicit table. -/
def lowerAscii (c : Char) : Char :=
  match c with
  | 'A' => 'a' | 'B' => 'b' | 'C' => 'c' | 'D' => 'd' | 'E' => 'e'
  | 'F' => 'f' | 'G' => 'g' | 'H' => 'h' | 'I' => 'i' | 'J' => 'j'
  | 'K' => 'k' | 'L' => 'l' | 'M' => 'm' | 'N' => 'n' | 'O' => 'o'
  | 'P' => 'p' | 'Q' => 'q' | 'R' => 'r' | 'S' => 's' | 'T' => 't'
  | 'U' => 'u' | 'V' => 'v' | 'W' => 'w' | 'X' => 'x' | 'Y' => 'y'
  | 'Z' => 'z'
  | _ => c

/-- ASCII upper-casing of a character, embedding `str.upper()` on the
fragment relevant to the keyword checks. -/
def upperAscii (c : Char) : Char :=
  if 'a' ≤ c ∧ c ≤ 'z' then Char.ofNat (c.toNat - 32) else c

/-- Whitespace as in Python's `\s` / `str.strip()` (ASCII fragment). -/
def isSpaceChar (c : Char) : Bool :=
  c = ' ' ∨ c = '\t' ∨ c = '\n' ∨ c = '\r' ∨ c = '\x0b' ∨ c = '\x0c'

/-- Word character as in Python's `\w` (ASCII fragment). -/
def isWordChar (c : Char) : Bool :=
  ('a' ≤ c ∧ c ≤ 'z') ∨ ('A' ≤ c ∧ c ≤ 'Z') ∨ ('0' ≤ c ∧ c ≤ '9') ∨ c = '_'

/-- Case-insensitive character equality. -/
def charEqCI (a b : Char) : Bool := lowerAscii a = lowerAscii b

/-- Prefix test: `startsWithCI s t` is true when `s` begins with `t`,
case-insensitively. -/
def startsWithCI : List Char → List Char → Bool
  | _, [] => true
  | [], _ :: _ => false
  | c :: s, d :: t => charEqCI c d && startsWithCI s t

/-- Substring test: `containsCIL s t` is true when `t` occurs in `s`,
case-insensitively.  Embeds Python's `t in s.upper()` for an upper-case
ASCII keyword `t`. -/
def containsCIL : List Char → List Char → Bool
  | [], t => startsWithCI [] t
  | s@(_ :: s'), t => startsWithCI s t || containsCIL s' t

/-- String-level wrapper for `containsCIL`. -/
def containsCI (s kw : String) : Bool := containsCIL s.data kw.data

/-- Exact (case-sensitive) substring test, for Python's `t in s`. -/
def startsWithL : List Char → List Char → Bool
  | _, [] => true
  | [], _ :: _ => false
  | c :: s, d :: t => (c = d : Bool) && startsWithL s t

/-- Exact substring occurrence. -/
def containsL : List Char → List Char → Bool
  | [], t => startsWithL [] t
  | s@(_ :: s'), t => startsWithL s t || containsL s' t

/-- Exact substring test on strings. -/
def containsStr (s kw : String) : Bool := containsL s.data kw.data

/-- Embeds `str.strip()` on character lists. -/
def stripChars (l : List Char) : List Char :=
  ((l.dropWhile isSpaceChar).reverse.dropWhile isSpaceChar).reverse

/-- Embeds `str.strip()` on strings. -/
def stripString (s : String) : String := String.mk (stripChars s.data)

/-- Embeds `str.lower()` (ASCII fragment). -/
def lowerString (s : String) : String := String.mk (s.data.map lowerAscii)

/-- Embeds `str.upper()` (ASCII fragment). -/
def upperString (s : String) : String := String.mk (s.data.map upperAscii)

/-- Single-character classes appearing in the hard-coded patterns. -/
inductive CClass where
  | ws      -- `\s`
  | wordc   -- `\w`
  | dotNoNL -- `.` without DOTALL
  deriving DecidableEq

/-- Does a character belong to a class? -/
def matchCC : CClass → Char → Bool
  | .ws, c => isSpaceChar c
  | .wordc, c => isWordChar c
  | .dotNoNL, c => c ≠ '\n'

/-- Items of the regex fragment used by the risk evaluator's patterns. -/
inductive RItem where
  | lit (c : Char)            -- case-insensitive literal
  | one (cc : CClass)         -- exactly one character of the class
  | many (cc : CClass)        -- zero or more characters of the class
  | bound                     -- `\b`
  | negLook (t : List Char)   -- `(?!t)` for a literal `t`
  deriving DecidableEq

/-- Boundary `\b` between an optional previous character and the next
one. -/
def isBoundary (prev : Option Char) (next : Option Char) : Bool :=
  let w : Option Char → Bool := fun o => match o with
    | some c => isWordChar c
    | none => false
  w prev ≠ w next

/-- Existential matcher, fuel-indexed so it is structurally recursive
(and hence kernel-evaluable): does some split of the input let the item
list match a prefix of `s`?  `prev` is the character before `s` (for
`\b`).  Every recursive call strictly decreases `s.length + rs.length`,
so any fuel above that sum never runs out. -/
def matchSeqF : Nat → List RItem → Option Char → List Char → Bool
  | 0, _, _, _ => false
  | _ + 1, [], _, _ => true
  | _ + 1, .lit _ :: _, _, [] => false
  | fuel + 1, .lit c :: rs, _, x :: s => charEqCI x c && matchSeqF fuel rs (some x) s
  | _ + 1, .one _ :: _, _, [] => false
  | fuel + 1, .one cc :: rs, _, x :: s => matchCC cc x && matchSeqF fuel rs (some x) s
  | fuel + 1, .many cc :: rs, prev, s =>
      matchSeqF fuel rs prev s ||
        (match s with
         | [] => false
         | x :: s' => matchCC cc x && matchSeqF fuel (.many cc :: rs) (some x) s')
  | fuel + 1, .bound :: rs, prev, s => isBoundary prev s.head? && matchSeqF fuel rs prev s
  | fuel + 1, .negLook t :: rs, prev, s => !startsWithCI s t && matchSeqF fuel rs prev s

/-- The matcher with sufficient fuel.  Since Python's backtracking engine
explores every quantifier split, a match object is returned iff some
split exists, which this computes. -/
def matchSeq (rs : List RItem) (prev : Option Char) (s : List Char) : Bool :=
  matchSeqF (s.length + rs.length + 1) rs prev s

/-- Search: does the pattern match starting at some position of `s`?
Embeds the truthiness of `re.search(pattern, s, re.IGNORECASE)`. -/
def reSearchAux (rs : List RItem) : Option Char → List Char → Bool
  | prev, [] => matchSeq rs prev []
  | prev, x :: s' => matchSeq rs prev (x :: s') || reSearchAux rs (some x) s'

/-- String-level regex search. -/
def reSearch (rs : List RItem) (s : String) : Bool := reSearchAux rs none s.data

/-- Literal pattern characters. -/
def lits (s : String) : List RItem := s.data.map RItem.lit

/-- Pattern `\s+`. -/
def wsPlus : List RItem := [.one .ws, .many .ws]

/-- Pattern `\s*`. -/
def wsStar : List RItem := [.many .ws]

/-- Pattern `\w+`. -/
def wordPlus : List RItem := [.one .wordc, .many .wordc]

/-- Pattern `.*?` (laziness does not affect match existence). -/
def dotsLazy : List RItem := [.many .dotNoNL]

/-! ## Risk evaluator (`dbrheo/tools/risk_evaluator.py`) -/

/-- Greedy `\w+` at the start of the input: the captured run and the rest. -/
def takeWordPlus : List Char → Option (List Char × List Char)
  | [] => none
  | c :: s =>
      if isWordChar c then some (c :: s.takeWhile isWordChar, s.dropWhile isWordChar)
      else none

/-- Match a case-insensitive literal at the start, returning the rest. -/
def dropLitsCI : List Char → List Char → Option (List Char)
  | [], s => some s
  | _ :: _, [] => none
  | d :: t, c :: s => if charEqCI c d then dropLitsCI t s else none

/-- Greedy `\s+` at the start of the input, returning the rest. -/
def takeWsPlus : List Char → Option (List Char)
  | [] => none
  | c :: s => if isSpaceChar c then some (s.dropWhile isSpaceChar) else none

/-- Match one table-extraction pattern `KW1\s+KW2\s+...\s+(\w+)` at the
current position; the splits are forced (keywords are literals and `\w`
and `\s` are disjoint), so the match is deterministic.  Returns the
captured group and the rest of the input. -/
def matchPatAt : List (List Char) → List Char → Option (String × List Char)
  | [], s =>
      match takeWordPlus s with
      | some (w, rest) => some (String.mk w, rest)
      | none => none
  | k :: ks, s =>
      match dropLitsCI k s with
      | some s1 =>
          match takeWsPlus s1 with
          | some s2 => matchPatAt ks s2
          | none => none
      | none => none

/-- Embeds `re.findall` for a table-extraction pattern: scan left to right,
non-overlapping.  The fuel (initialised to the input length) is enough
because every successful match consumes at least its one-character
capture. -/
def findAllPatAux (kws : List (List Char)) : Nat → List Char → List String
  | 0, _ => []
  | fuel + 1, s =>
      match matchPatAt kws s with
      | some (w, after) => w :: findAllPatAux kws fuel after
      | none =>
          match s with
          | [] => []
          | _ :: rest => findAllPatAux kws fuel rest

/-- All group-1 captures of one pattern, in order. -/
def findAllPat (kws : List (List Char)) (s : List Char) : List String :=
  findAllPatAux kws s.length s

/-- The table-name extraction patterns, in source order
(`FROM/JOIN/UPDATE/INSERT INTO/DELETE FROM/CREATE TABLE/ALTER TABLE/
DROP TABLE/TRUNCATE TABLE`, each followed by `\s+(\w+)`). -/
def tablePatterns : List (List (List Char)) :=
  [ ["FROM".data], ["JOIN".data], ["UPDATE".data],
    ["INSERT".data, "INTO".data], ["DELETE".data, "FROM".data],
    ["CREATE".data, "TABLE".data], ["ALTER".data, "TABLE".data],
    ["DROP".data, "TABLE".data], ["TRUNCATE".data, "TABLE".data] ]

/-- Embeds `_extract_table_names`: union of all captures.  The source collects the
names in a Python `set` (whose iteration order is unspecified); we fix the
canonical order "first occurrence, patterns in source order".  Every use
(length, per-distinct-table sums) depends only on the underlying set. -/
def extract_table_names (sql : String) : List String :=
  (tablePatterns.foldl (fun acc pat => acc ++ findAllPat pat sql.data) []).dedup

/-- Pattern `\bJOIN\b` as a position-anchored item list. -/
def joinPattern : List RItem := [.bound] ++ lits "JOIN" ++ [.bound]

/-- Count the positions where `\bJOIN\b` matches.  Matches of this pattern
cannot overlap (all four characters are word characters, so an inner start
position has no left boundary), hence this equals `len(re.findall(...))`. -/
def countJoinAux : Option Char → List Char → Nat
  | _, [] => 0
  | prev, c :: rest =>
      (if matchSeq joinPattern prev (c :: rest) then 1 else 0) + countJoinAux (some c) rest

/-- Number of `\bJOIN\b` occurrences (case-insensitive). -/
def countJoin (sql : String) : Nat := countJoinAux none sql.data

/-- The hard-coded dangerous patterns (source string, embedded items),
in source order. -/
def dangerous_patterns : List (String × List RItem) :=
  [ ("\\bDROP\\s+TABLE\\b",
      [.bound] ++ lits "DROP" ++ wsPlus ++ lits "TABLE" ++ [.bound]),
    ("\\bTRUNCATE\\s+TABLE\\b",
      [.bound] ++ lits "TRUNCATE" ++ wsPlus ++ lits "TABLE" ++ [.bound]),
    ("\\bDELETE\\s+FROM\\s+\\w+\\s*(?!WHERE)",
      [.bound] ++ lits "DELETE" ++ wsPlus ++ lits "FROM" ++ wsPlus ++ wordPlus
        ++ wsStar ++ [.negLook "WHERE".data]),
    ("\\bUPDATE\\s+\\w+\\s+SET\\s+.*?(?!WHERE)",
      [.bound] ++ lits "UPDATE" ++ wsPlus ++ wordPlus ++ wsPlus ++ lits "SET"
        ++ wsPlus ++ dotsLazy ++ [.negLook "WHERE".data]),
    ("\\bALTER\\s+TABLE\\s+.*?\\bDROP\\b",
      [.bound] ++ lits "ALTER" ++ wsPlus ++ lits "TABLE" ++ wsPlus ++ dotsLazy
        ++ [.bound] ++ lits "DROP" ++ [.bound]),
    ("\\bDROP\\s+DATABASE\\b",
      [.bound] ++ lits "DROP" ++ wsPlus ++ lits "DATABASE" ++ [.bound]),
    ("\\bDROP\\s+SCHEMA\\b",
      [.bound] ++ lits "DROP" ++ wsPlus ++ lits "SCHEMA" ++ [.bound]) ]

/-- The SQL-injection patterns of `_assess_security_risk`, in source order. -/
def injection_patterns : List (List RItem) :=
  [ lits "'" ++ dotsLazy ++ lits "OR" ++ dotsLazy ++ lits "'" ++ dotsLazy ++ lits "'",
    lits "'" ++ dotsLazy ++ lits "UNION" ++ dotsLazy ++ lits "SELECT",
    lits "'" ++ dotsLazy ++ lits ";" ++ dotsLazy ++ lits "--",
    lits "'" ++ dotsLazy ++ lits ";" ++ dotsLazy ++ lits "DROP" ]

/-- An optional i18n table, as consulted by `DatabaseRiskEvaluator._`. -/
abbrev I18nTable := String → Option String

/-- Embeds `DatabaseRiskEvaluator._`: localized text lookup with `{key}`
placeholder substitution; falls back to the default text. -/
def tr (i18n : Option I18nTable) (key default : String)
    (kwargs : List (String × String)) : String :=
  let text :=
    match i18n with
    | some table =>
        match table key with
        | some t => t
        | none => default
    | none => default
  kwargs.foldl (fun t kv => t.replace ("\x7b" ++ kv.1 ++ "\x7d") kv.2) text

/-- Risk levels. -/
inductive RiskLevel where
  | low
  | medium
  | high
  | critical
  deriving DecidableEq, Repr

/-- The evaluation context (`table_sizes`, `foreign_keys`); absent keys
default to empty as in `context.get(...)`. -/
structure RiskContext where
  table_sizes : List (String × Nat)
  foreign_keys : List String
  deriving DecidableEq, Repr

/-- The empty context (`context or {}`). -/
def emptyRiskContext : RiskContext := ⟨[], []⟩

/-- Embeds `RiskAssessment` dataclass. -/
structure RiskAssessment where
  level : RiskLevel
  score : Nat
  reasons : List String
  recommendations : List String
  requires_confirmation : Bool
  estimated_impact : String
  affected_tables : List String
  operation_type : String
  deriving DecidableEq, Repr

/-- Embeds `operation_weights.get(op, 2.0) * 10`; all weights are multiples of
0.1, so the scaled values are the naturals below. -/
def operationWeightX10 (op : String) : Nat :=
  match op with
  | "SELECT" => 10
  | "INSERT" => 20
  | "UPDATE" => 30
  | "DELETE" => 40
  | "CREATE" => 25
  | "ALTER" => 45
  | "DROP" => 50
  | "TRUNCATE" => 48
  | _ => 20

/-- The verb probe order of `_extract_operation_type`. -/
def opOrder : List String :=
  ["SELECT", "INSERT", "UPDATE", "DELETE", "CREATE", "ALTER", "DROP", "TRUNCATE"]

/-- Embeds `_extract_operation_type`: first verb the upper-cased stripped SQL
starts with, else `UNKNOWN`. -/
def extract_operation_type (sql : String) : String :=
  let u := stripChars (sql.data.map upperAscii)
  match opOrder.find? (fun op => startsWithL u op.data) with
  | some op => op
  | none => "UNKNOWN"

/-- The body of the `for pattern in self.dangerous_patterns` loop:
+30 and one reason per matching pattern. -/
def dangerousStep (i18n : Option I18nTable) (sql : String)
    (acc : Nat × List String) (pat : String × List RItem) : Nat × List String :=
  if reSearch pat.2 sql then
    (acc.1 + 30,
     acc.2 ++ [tr i18n "risk_dangerous_pattern" ("检测到危险操作模式: " ++ pat.1)
                [("pattern", pat.1)]])
  else acc

/-- Embeds `_assess_operation_risk`: base weight, +30 per dangerous pattern
match, +25 for a modifying op without WHERE; collects reasons. -/
def assess_operation_risk (i18n : Option I18nTable) (operation_type : String)
    (sql : String) : Nat × List String :=
  let base := operationWeightX10 operation_type
  let afterPatterns := dangerous_patterns.foldl (dangerousStep i18n sql)
    (base, ([] : List String))
  if (["DROP", "TRUNCATE"] : List String).contains operation_type then
    (afterPatterns.1,
     afterPatterns.2 ++ [tr i18n "risk_high_operation" "高风险操作：可能导致数据永久丢失" []])
  else if (["DELETE", "UPDATE"] : List String).contains operation_type then
    if !containsCI sql "WHERE" then
      (afterPatterns.1 + 25,
       afterPatterns.2 ++ [tr i18n "risk_no_where" "缺少WHERE条件：可能影响所有数据" []])
    else afterPatterns
  else afterPatterns

/-- Embeds `table_sizes.get(table, 0)`. -/
def lookupSize (l : List (String × Nat)) (k : String) : Nat :=
  match l.find? (fun p => p.1 = k) with
  | some p => p.2
  | none => 0

/-- The body of the `for table in tables` loop of `_assess_scope_risk`:
+20 and one reason per known large table. -/
def largeTableStep (i18n : Option I18nTable) (context : RiskContext)
    (acc : Nat × List String) (table : String) : Nat × List String :=
  if lookupSize context.table_sizes table > 1000000 then
    (acc.1 + 20,
     acc.2 ++ [tr i18n "risk_large_table" "大表操作(\x7btable\x7d)：可能影响性能"
                [("table", table)]])
  else acc

/-- Embeds `_assess_scope_risk`: +15 for more than three tables, +20 per table
with known size over 1,000,000. -/
def assess_scope_risk (i18n : Option I18nTable) (sql : String)
    (tables : List String) (context : RiskContext) : Nat × List String :=
  let start :=
    if tables.length > 3 then
      ((15 : Nat),
       [tr i18n "risk_multiple_tables" "涉及多个表(\x7bcount\x7d个)：操作复杂度较高"
          [("count", toString tables.length)]])
    else (0, [])
  tables.foldl (largeTableStep i18n context) start

/-- Embeds `_assess_integrity_risk`: +10 for DELETE/UPDATE text when the context
lists foreign keys. -/
def assess_integrity_risk (i18n : Option I18nTable) (sql : String)
    (context : RiskContext) : Nat × List String :=
  if containsCI sql "DELETE" || containsCI sql "UPDATE" then
    if context.foreign_keys ≠ [] then
      (10, [tr i18n "risk_foreign_key" "可能影响外键约束关系" []])
    else (0, [])
  else (0, [])

/-- Embeds `_assess_performance_risk`: +15 for SELECT text without WHERE text,
plus `join_count * 5` when there are more than two `\bJOIN\b` matches. -/
def assess_performance_risk (i18n : Option I18nTable) (sql : String)
    (context : RiskContext) : Nat × List String :=
  let start :=
    if !containsCI sql "WHERE" && containsCI sql "SELECT" then
      ((15 : Nat), [tr i18n "risk_full_scan" "可能导致全表扫描" []])
    else (0, [])
  let join_count := countJoin sql
  if join_count > 2 then
    (start.1 + join_count * 5,
     start.2 ++ [tr i18n "risk_complex_join" "复杂JOIN操作(\x7bcount\x7d个)：可能影响性能"
                  [("count", toString join_count)]])
  else start

/-- Embeds `_assess_security_risk`: +40 (once, with a single reason) if any
injection pattern matches. -/
def assess_security_risk (i18n : Option I18nTable) (sql : String) : Nat × List String :=
  if injection_patterns.any (fun p => reSearch p sql) then
    (40, [tr i18n "risk_sql_injection" "检测到潜在SQL注入模式" []])
  else (0, [])

/-- Embeds `_calculate_risk_level`: thresholds 80/60/30. -/
def calculate_risk_level (score : Nat) : RiskLevel :=
  if score ≥ 80 then .critical
  else if score ≥ 60 then .high
  else if score ≥ 30 then .medium
  else .low

/-- Embeds `_generate_recommendations`. -/
def generate_recommendations (i18n : Option I18nTable) (operation_type : String)
    (risk_level : RiskLevel) (risk_factors : List String) (sql : String) : List String :=
  (if risk_level = .high ∨ risk_level = .critical then
     [tr i18n "risk_recommend_test" "建议在测试环境中先验证此操作" []]
   else []) ++
  (if !containsCI sql "WHERE" && (["UPDATE", "DELETE"] : List String).contains operation_type then
     [tr i18n "risk_recommend_where" "建议添加WHERE条件限制影响范围" []]
   else []) ++
  (if (["DROP", "TRUNCATE"] : List String).contains operation_type then
     [tr i18n "risk_recommend_backup" "建议先创建数据备份" []]
   else []) ++
  (if risk_factors.contains (tr i18n "risk_full_scan" "可能导致全表扫描" []) then
     [tr i18n "risk_recommend_index" "建议添加适当的索引或WHERE条件" []]
   else [])

/-- Embeds `_requires_confirmation`. -/
def requires_confirmation_check (risk_level : RiskLevel) (operation_type : String)
    (sql : String) : Bool :=
  if risk_level = .high ∨ risk_level = .critical then true
  else if (["DROP", "TRUNCATE", "ALTER"] : List String).contains operation_type then true
  else if (["UPDATE", "DELETE"] : List String).contains operation_type
          && !containsCI sql "WHERE" then true
  else false

/-- Embeds `_estimate_impact`. -/
def estimate_impact (operation_type : String) (sql : String)
    (context : RiskContext) : String :=
  if (["DROP", "TRUNCATE"] : List String).contains operation_type then "high"
  else if (["DELETE", "UPDATE"] : List String).contains operation_type
          && !containsCI sql "WHERE" then "high"
  else if (["ALTER", "CREATE"] : List String).contains operation_type then "medium"
  else "low"

/-- The accumulated (unclamped) risk score of `evaluate_sql_risk`. -/
def total_risk_score (i18n : Option I18nTable) (sql : String)
    (context : RiskContext) : Nat :=
  let sql_clean := stripString sql
  let operation_type := extract_operation_type sql_clean
  let affected_tables := extract_table_names sql_clean
  (assess_operation_risk i18n operation_type sql_clean).1
    + (assess_scope_risk i18n sql_clean affected_tables context).1
    + (assess_integrity_risk i18n sql_clean context).1
    + (assess_performance_risk i18n sql_clean context).1
    + (assess_security_risk i18n sql_clean).1

/-- Embeds `DatabaseRiskEvaluator.evaluate_sql_risk`. -/
def evaluate_sql_risk (i18n : Option I18nTable) (sql : String)
    (context : RiskContext) : RiskAssessment :=
  let sql_clean := stripString sql
  let operation_type := extract_operation_type sql_clean
  let affected_tables := extract_table_names sql_clean
  let op := assess_operation_risk i18n operation_type sql_clean
  let scope := assess_scope_risk i18n sql_clean affected_tables context
  let integrity := assess_integrity_risk i18n sql_clean context
  let perf := assess_performance_risk i18n sql_clean context
  let sec := assess_security_risk i18n sql_clean
  let total_score := op.1 + scope.1 + integrity.1 + perf.1 + sec.1
  let risk_factors := op.2 ++ scope.2 ++ integrity.2 ++ perf.2 ++ sec.2
  let risk_level := calculate_risk_level total_score
  { level := risk_level
    score := min total_score 100
    reasons := risk_factors
    recommendations := generate_recommendations i18n operation_type risk_level risk_factors sql_clean
    requires_confirmation := requires_confirmation_check risk_level operation_type sql_clean
    estimated_impact := estimate_impact operation_type sql_clean context
    affected_tables := affected_tables
    operation_type := operation_type }

/-! ## Token statistics (`dbrheo/core/token_statistics.py`) -/

/-- Embeds `TokenUsageRecord` (timestamp omitted: no claim concerns it).
`Optional[int]` fields are `Option Int`. -/
structure TokenUsageRecord where
  model : String
  prompt_tokens : Option Int
  completion_tokens : Option Int
  total_tokens : Option Int
  deriving DecidableEq, Repr

/-- One `usage_data` dict.  `usage_data.get(k, 0)` turns a missing key
into `0` and keeps an explicit `None`; `get_summary` then treats `None`
as `0` (`r.x or 0`), so a missing key and `None` are extensionally the
same and both are modelled as `none`. -/
structure UsageData where
  prompt_tokens : Option Int
  completion_tokens : Option Int
  total_tokens : Option Int
  deriving DecidableEq, Repr

/-- Embeds `TokenStatistics.add_usage`: append one record. -/
def add_usage (records : List TokenUsageRecord) (model : String)
    (usage_data : UsageData) : List TokenUsageRecord :=
  records ++ [⟨model, usage_data.prompt_tokens, usage_data.completion_tokens,
              usage_data.total_tokens⟩]

/-- The records produced by a sequence of `add_usage` calls. -/
def recordsOfCalls (calls : List (String × UsageData)) : List TokenUsageRecord :=
  calls.foldl (fun st c => add_usage st c.1 c.2) []

/-- Per-model aggregate in `by_model`. -/
structure ModelStats where
  calls : Nat
  prompt_tokens : Int
  completion_tokens : Int
  total_tokens : Int
  deriving DecidableEq, Repr

/-- Fold one record into its model's `by_model` entry (Python dicts keep
insertion order and update in place). -/
def bumpModel : List (String × ModelStats) → TokenUsageRecord → List (String × ModelStats)
  | [], r =>
      [(r.model, ⟨1, r.prompt_tokens.getD 0, r.completion_tokens.getD 0,
                  r.total_tokens.getD 0⟩)]
  | (m, st) :: rest, r =>
      if m = r.model then
        (m, ⟨st.calls + 1, st.prompt_tokens + r.prompt_tokens.getD 0,
             st.completion_tokens + r.completion_tokens.getD 0,
             st.total_tokens + r.total_tokens.getD 0⟩) :: rest
      else (m, st) :: bumpModel rest r

/-- Embeds `get_summary`'s result. -/
structure TokenSummary where
  total_calls : Nat
  total_prompt_tokens : Int
  total_completion_tokens : Int
  total_tokens : Int
  by_model : List (String × ModelStats)
  deriving DecidableEq, Repr

/-- Embeds `TokenStatistics.get_summary`. -/
def get_summary (records : List TokenUsageRecord) : TokenSummary :=
  if records = [] then ⟨0, 0, 0, 0, []⟩
  else
    let total_prompt := (records.map (fun r => r.prompt_tokens.getD 0)).sum
    let total_completion := (records.map (fun r => r.completion_tokens.getD 0)).sum
    let by_model := records.foldl bumpModel []
    ⟨records.length, total_prompt, total_completion, total_prompt + total_completion,
     by_model⟩

/-! ## Provider retry configuration
(`services/{gemini,openai,claude}_service.py`)

`RetryOptions` itself lives in `dbrheo/utils/retry_with_backoff.py`, which
is not part of the sources here; the structure below records the keyword
arguments the three services pass at their call sites.  A `none` means the
call site does not wrap the call in `retry_with_backoff_sync` at all. -/

/-- The keyword arguments of a `RetryOptions(...)` construction. -/
structure RetryOptions where
  max_attempts : Nat
  initial_delay_ms : Nat
  max_delay_ms : Nat
  deriving DecidableEq, Repr

/-- Embeds `GeminiService.send_message_stream` retry options. -/
def geminiStreamRetry : Option RetryOptions := some ⟨3, 2000, 10000⟩

/-- Embeds `OpenAIService.send_message_stream` retry options. -/
def openaiStreamRetry : Option RetryOptions := some ⟨3, 2000, 10000⟩

/-- Embeds `ClaudeService.send_message_stream` retry options. -/
def claudeStreamRetry : Option RetryOptions := some ⟨3, 2000, 10000⟩

/-- Embeds `GeminiService.generate_json` retry options. -/
def geminiJsonRetry : Option RetryOptions := some ⟨5, 3000, 20000⟩

/-- Embeds `OpenAIService.generate_json` performs its API call directly inside
`run_in_executor`, with no retry wrapper. -/
def openaiJsonRetry : Option RetryOptions := none

/-- Embeds `ClaudeService.generate_json` performs its API call directly inside
`run_in_executor`, with no retry wrapper. -/
def claudeJsonRetry : Option RetryOptions := none

/-! ## `generate_json` fallback behaviour -/

/-- A minimal JSON value (enough to state what the fallback object is). -/
inductive JsonValue where
  | str (s : String)
  | num (n : Int)
  | obj (fields : List (String × JsonValue))
  | arr (elems : List JsonValue)
  | null

/-- Field lookup in a JSON object. -/
def jsonGet : JsonValue → String → Option JsonValue
  | .obj fields, k =>
      match fields.find? (fun p => p.1 = k) with
      | some p => some p.2
      | none => none
  | _, _ => none

/-- The object all three services return from the `except` branch of
`generate_json`. -/
def jsonErrorFallback (e : String) : JsonValue :=
  .obj [("next_speaker", .str "user"),
        ("reasoning", .str ("Error in JSON generation: " ++ e))]

/-- Embeds `GeminiService.generate_json`: the whole body runs inside
`try/except`.  `apiResult` is the outcome of the (retried) API call —
the response text on success, the exception text on failure; `parse`
is `json.loads`. -/
def geminiGenerateJson (parse : String → Except String JsonValue)
    (apiResult : Except String String) : JsonValue :=
  match apiResult with
  | .error e => jsonErrorFallback e
  | .ok text =>
      match parse text with
      | .ok v => v
      | .error e => jsonErrorFallback e

/-- Embeds `OpenAIService.generate_json`: same `try/except` shape (JSON mode,
then `json.loads`). -/
def openaiGenerateJson (parse : String → Except String JsonValue)
    (apiResult : Except String String) : JsonValue :=
  match apiResult with
  | .error e => jsonErrorFallback e
  | .ok text =>
      match parse text with
      | .ok v => v
      | .error e => jsonErrorFallback e

/-- Embeds `re.search(r'\{.*\}', text, re.DOTALL)`: the greedy brace-to-brace
slice — from the first `{` to the last `}` after it, if any. -/
def extractBraces (text : String) : Option String :=
  let l := text.data
  let afterFirst := l.dropWhile (fun c => c ≠ '\x7b')
  match afterFirst with
  | [] => none
  | _ :: _ =>
      let upToLast := (afterFirst.reverse.dropWhile (fun c => c ≠ '\x7d')).reverse
      match upToLast with
      | [] => none
      | _ => some (String.mk upToLast)

/-- Embeds `ClaudeService.generate_json`: extracts a `{...}` slice first, then
parses (falling back to parsing the whole text), all inside `try/except`. -/
def claudeGenerateJson (parse : String → Except String JsonValue)
    (apiResult : Except String String) : JsonValue :=
  match apiResult with
  | .error e => jsonErrorFallback e
  | .ok text =>
      match extractBraces text with
      | some sub =>
          match parse sub with
          | .ok v => v
          | .error e => jsonErrorFallback e
      | none =>
          match parse text with
          | .ok v => v
          | .error e => jsonErrorFallback e

/-! ## Confirmation-resume polling
(`dbrheo_cli/app/cli.py`, `_continue_after_confirmation` /
`_get_model_wait_time`) -/

/-- Model-name markers that trigger the strict-pairing polling path. -/
def strictPairingMarkers : List String := ["gpt", "claude", "openai", "sonnet"]

/-- Embeds `any(model in model_lower for model in [...])`. -/
def needsStrictPairing (current_model : String) : Bool :=
  strictPairingMarkers.any (fun m => containsStr (lowerString current_model) m)

/-- Embeds `_get_model_wait_time`, in milliseconds (insertion-ordered dict scan,
substring match, default 0.5 s). -/
def getModelWaitTimeMs (model_name : String) : Nat :=
  let model_lower := lowerString model_name
  let features : List (String × Nat) :=
    [("claude", 1500), ("gpt", 1500), ("openai", 1500),
     ("gemini", 500), ("default", 500)]
  match features.find? (fun p => containsStr model_lower p.1) with
  | some p => p.2
  | none => 500

/-- The statuses the polling loop counts as still active. -/
def activeStatuses : List String := ["scheduled", "executing", "validating"]

/-- Is some tool call still in an active status? -/
def hasActiveTools (statuses : List String) : Bool :=
  statuses.any (fun s => activeStatuses.contains s)

/-- Embeds `poll_interval` in milliseconds. -/
def pollIntervalMs : Nat := 100

/-- Embeds `max_wait` in milliseconds (the nominal deadline the float
comparison uses). -/
def maxWaitMs : Nat := 5000

/-- Number of iterations of `while waited < 5.0: ...; waited += 0.1`.
`waited` is a Python (IEEE-754 binary64) float: the rounded sum of fifty
additions of 0.1 is 4.999999999999998 < 5.0, so on the never-break path
the loop checks the scheduler and sleeps a 51st time (`waited` then
reaches 5.099999999999998 and the loop exits), one iteration past the
nominal 5000 ms / 100 ms = 50. -/
def maxPolls : Nat := 51

/-- The polling loop: `snap t` is the scheduler's status snapshot at the
`t`-th check (one check per 100 ms sleep).  Returns how many sleeps
happened and whether the loop exited because no tool was active. -/
def pollLoop (snap : Nat → List String) : Nat → Nat → Nat × Bool
  | tick, 0 => (tick, false)
  | tick, fuel + 1 =>
      if hasActiveTools (snap tick) then pollLoop snap (tick + 1) fuel
      else (tick, true)

/-- Outcome of `_continue_after_confirmation` up to the point where the
bridge prompt "Please continue." is sent. -/
structure ContinueOutcome where
  usedPolling : Bool
  waitedTicks : Nat
  observedAllInactive : Bool
  fixedDelayMs : Nat
  bridgeSent : Bool
  deriving DecidableEq, Repr

/-- Embeds `_continue_after_confirmation`: strict-pairing models poll (at most
`maxPolls` times, proceeding anyway on timeout); other models sleep a
fixed delay.  In both branches control then reaches the send of
"Please continue.", so `bridgeSent` is unconditionally true. -/
def continue_after_confirmation (current_model : String)
    (snap : Nat → List String) : ContinueOutcome :=
  if needsStrictPairing current_model then
    let r := pollLoop snap 0 maxPolls
    ⟨true, r.1, r.2, 0, true⟩
  else
    ⟨false, 0, false, getModelWaitTimeMs current_model, true⟩

/-! ## History-to-provider message conversion
(`openai_service._gemini_to_openai_messages`,
`claude_service._gemini_to_claude_messages`)

`function_call` arguments and `function_response` bodies are opaque
strings standing for their JSON serialization (`json.dumps` is the
identity on them).  The `function_response`/`functionResponse` key
variants are collapsed into one constructor, exactly as both readers
treat them. -/

/-- One part of an internal (Gemini-form) content. -/
inductive GPart where
  | text (s : String)
  | functionCall (id : Option String) (name : Option String) (args : String)
  | functionResponse (id : Option String) (response : String)
  deriving DecidableEq, Repr

/-- One internal content: a role and its parts. -/
structure GContent where
  role : String
  parts : List GPart
  deriving DecidableEq, Repr

/-- An entry of an OpenAI `tool_calls` array. -/
structure OAIToolCall where
  id : String
  name : String
  arguments : String
  deriving DecidableEq, Repr

/-- An OpenAI chat message.  `tool_calls = []` models the absence of the
`tool_calls` key (the source only ever sets it to a non-empty list), and
`tool_call_id = none` the absence of that key. -/
structure OAIMessage where
  role : String
  content : String
  tool_calls : List OAIToolCall
  tool_call_id : Option String
  deriving DecidableEq, Repr

/-- A plain (non-tool) OpenAI message. -/
def oaiMsg (role content : String) : OAIMessage := ⟨role, content, [], none⟩

/-- Build the per-content message and collect pending tool responses:
first pass of `_gemini_to_openai_messages`. -/
def buildOneOpenai (content : GContent) : Option OAIMessage × List OAIMessage :=
  let role := if content.role = "model" then "assistant" else content.role
  let step := content.parts.foldl
    (fun (acc : List String × List OAIToolCall × List OAIMessage) part =>
      match part with
      | .text s => (acc.1 ++ [s], acc.2.1, acc.2.2)
      | .functionCall id name args =>
          (acc.1,
           acc.2.1 ++ [⟨id.getD ("call_" ++ toString acc.2.1.length),
                        name.getD "", args⟩],
           acc.2.2)
      | .functionResponse id response =>
          (acc.1, acc.2.1,
           acc.2.2 ++ [⟨"tool", response, [], some (id.getD "")⟩]))
    ([], [], [])
  let text_parts := step.1
  let tool_calls := step.2.1
  let pending := step.2.2
  if text_parts ≠ [] ∨ tool_calls ≠ [] then
    (some ⟨role,
           String.intercalate "\n" text_parts,
           if tool_calls ≠ [] ∧ role = "assistant" then tool_calls else [],
           none⟩,
     pending)
  else (none, pending)

/-- First pass over the whole history: messages in order, with all
pending tool responses appended at the end. -/
def buildOpenaiMessages (contents : List GContent) : List OAIMessage :=
  let step := contents.foldl
    (fun (acc : List OAIMessage × List OAIMessage) content =>
      let r := buildOneOpenai content
      (match r.1 with
       | some m => acc.1 ++ [m]
       | none => acc.1,
       acc.2 ++ r.2))
    ([], [])
  step.1 ++ step.2

/-- Is this an assistant message carrying tool calls
(`msg["role"] == "assistant" and "tool_calls" in msg`)? -/
def isAssistantWithCalls (m : OAIMessage) : Bool :=
  m.role = "assistant" && m.tool_calls ≠ []

/-- The last `tool` message with the given `tool_call_id`
(dict comprehension overwrites earlier entries). -/
def toolResponseFor (msgs : List OAIMessage) (id : String) : Option OAIMessage :=
  (msgs.filter (fun m => m.role = "tool" && m.tool_call_id = some id)).getLast?

/-- The bridge-prompt texts the pairing fix may drop. -/
def bridgeTexts : List String := ["Please continue.", "Continue the conversation."]

/-- Second pass (`while i < len(messages)` loop): re-pair each assistant
tool-call message with its responses, skip already-used tool responses,
and drop a bridge user-message that interrupts an unpaired block.
`msgs` is the tail still to process; `isFirst` tracks `i > start_idx`. -/
def fixPairing (map : String → Option OAIMessage) :
    List OAIMessage → List OAIMessage → List String → Bool → List OAIMessage
  | [], fixed, _, _ => fixed
  | msg :: rest, fixed, used, isFirst =>
      if isAssistantWithCalls msg then
        let paired := msg.tool_calls.foldl
          (fun (acc : List OAIMessage × List String) tc =>
            match map tc.id with
            | some resp =>
                if acc.2.contains tc.id then acc
                else (acc.1 ++ [resp], acc.2 ++ [tc.id])
            | none => acc)
          ([msg], used)
        fixPairing map rest (fixed ++ paired.1) paired.2 false
      else if msg.role = "tool" then
        if (match msg.tool_call_id with
            | some id => used.contains id
            | none => used.contains "") then
          fixPairing map rest fixed used false
        else
          fixPairing map rest (fixed ++ [msg]) used false
      else
        let skip :=
          msg.role = "user" && bridgeTexts.contains (stripString msg.content)
            && !isFirst && fixed ≠ [] &&
            (match fixed.getLast? with
             | some prev =>
                 isAssistantWithCalls prev
                   && !(prev.tool_calls.all (fun tc => used.contains tc.id))
             | none => false)
        if skip then fixPairing map rest fixed used false
        else fixPairing map rest (fixed ++ [msg]) used false

/-- The placeholder tool response synthesized for an unpaired call. -/
def placeholderMsg (id : String) : OAIMessage :=
  ⟨"tool", "Tool execution pending or awaiting confirmation", [], some id⟩

/-- Does the next message answer this call id? -/
def nextAnswers (next : Option OAIMessage) (id : String) : Bool :=
  match next with
  | some n => n.role = "tool" && n.tool_call_id = some id
  | none => false

/-- Placeholders for every call of an assistant message that the
immediately following message does not answer. -/
def placeholdersFor (tcs : List OAIToolCall) (next : Option OAIMessage) :
    List OAIMessage :=
  tcs.filterMap (fun tc => if nextAnswers next tc.id then none
                           else some (placeholderMsg tc.id))

/-- Third pass: walk `fixed_messages`, inserting placeholder responses
right after each assistant tool-call message for calls the next message
does not answer. -/
def addPlaceholders : List OAIMessage → List OAIMessage
  | [] => []
  | m :: rest =>
      if isAssistantWithCalls m then
        m :: (placeholdersFor m.tool_calls rest.head? ++ addPlaceholders rest)
      else m :: addPlaceholders rest

/-- Embeds `_gemini_to_openai_messages`: the full three-pass pipeline (an
optional system message first). -/
def gemini_to_openai_messages (contents : List GContent)
    (system_instruction : Option String) : List OAIMessage :=
  let sys : List OAIMessage :=
    match system_instruction with
    | some s => [oaiMsg "system" s]
    | none => []
  let messages := buildOpenaiMessages contents
  let fixed := fixPairing (toolResponseFor messages) messages sys [] true
  addPlaceholders fixed

/-- A Claude content block. -/
inductive CBlock where
  | text (s : String)
  | toolUse (id name input : String)
  | toolResult (tool_use_id content : String)
  deriving DecidableEq, Repr

/-- Claude message content: either a plain string or a block list. -/
inductive CContentV where
  | str (s : String)
  | blocks (l : List CBlock)
  deriving DecidableEq, Repr

/-- A Claude chat message. -/
structure CMessage where
  role : String
  content : CContentV
  deriving DecidableEq, Repr

/-- Convert one internal content to zero or more Claude messages
(the body of the `for content in contents` loop). -/
def buildOneClaude (content : GContent) : List CMessage :=
  let role := if content.role = "model" then "assistant" else content.role
  let step := content.parts.foldl
    (fun (acc : List String × List CBlock × List CBlock) part =>
      match part with
      | .text s => (acc.1 ++ [s], acc.2.1, acc.2.2)
      | .functionCall id name args =>
          (acc.1,
           acc.2.1 ++ [.toolUse (id.getD ("call_" ++ name.getD "unknown"))
                        (name.getD "unknown") args],
           acc.2.2)
      | .functionResponse id response =>
          (acc.1, acc.2.1, acc.2.2 ++ [.toolResult (id.getD "") response]))
    ([], [], [])
  let text_parts := step.1
  let tool_use_parts := step.2.1
  let tool_result_parts := step.2.2
  if role = "assistant" ∧ (text_parts ≠ [] ∨ tool_use_parts ≠ []) then
    [⟨"assistant",
      .blocks ((if text_parts ≠ [] then
                  [CBlock.text (String.intercalate "\n" text_parts)]
                else []) ++ tool_use_parts)⟩]
  else if role = "user" ∧ tool_result_parts ≠ [] then
    tool_result_parts.map (fun tr => ⟨"user", .blocks [tr]⟩)
  else if text_parts ≠ [] then
    [⟨role, .str (String.intercalate "\n" text_parts)⟩]
  else []

/-- Embeds `_gemini_to_claude_messages`: per-content conversion, then the
leading/trailing user-message fixups.  No placeholder tool results are
synthesized anywhere in this function. -/
def gemini_to_claude_messages (contents : List GContent) : List CMessage :=
  let messages := contents.foldl (fun acc c => acc ++ buildOneClaude c) []
  let messages :=
    match messages.head? with
    | some m => if m.role ≠ "user" then
                  (⟨"user", .str "Continue the conversation."⟩ : CMessage) :: messages
                else messages
    | none => messages
  match messages.getLast? with
  | some m => if m.role ≠ "user" then
                messages ++ [(⟨"user", .str "Please continue."⟩ : CMessage)]
              else messages
  | none => messages

/-! ## Claim-side (specification) definitions

These definitions transcribe the spec's wording, to be compared with the
code-derived definitions above. -/

/-- Rank of a risk level, to express monotonicity of the level
classifier. -/
def levelRank : RiskLevel → Nat
  | .low => 0
  | .medium => 1
  | .high => 2
  | .critical => 3

/-- The base weights C4 claims, per verb. -/
def claimOperationBase (op : String) : Nat :=
  match op with
  | "SELECT" => 10
  | "INSERT" => 20
  | "CREATE" => 25
  | "UPDATE" => 30
  | "TRUNCATE" => 48
  | "DELETE" => 40
  | "ALTER" => 45
  | "DROP" => 50
  | _ => 0

/-- The verbs enumerated by C4. -/
def claimVerbs : List String :=
  ["SELECT", "INSERT", "CREATE", "UPDATE", "TRUNCATE", "DELETE", "ALTER", "DROP"]

/-- Number of hard-coded dangerous patterns the SQL matches. -/
def countDangerousMatches (sql : String) : Nat :=
  dangerous_patterns.countP (fun p => reSearch p.2 sql)

/-- Does some later message answer this call id with a `tool` message? -/
def answeredIn (id : String) (l : List OAIMessage) : Bool :=
  l.any (fun m => m.role = "tool" && m.tool_call_id = some id)

/-- Spec-side pairing property: in the message list, every assistant
message carrying tool calls is followed (later in the list) by a `tool`
message for each of its call ids. -/
def allCallsAnswered : List OAIMessage → Bool
  | [] => true
  | m :: rest =>
      (if isAssistantWithCalls m then
         m.tool_calls.all (fun tc => answeredIn tc.id rest)
       else true)
        && allCallsAnswered rest

/-- The placeholder content string named by C3. -/
def placeholderText : String := "Tool execution pending or awaiting confirmation"

/-- Does a Claude message mention the given text anywhere (plain content,
text block, tool input, or tool result)? -/
def cmessageMentions (needle : String) (m : CMessage) : Bool :=
  match m.content with
  | .str s => containsStr s needle
  | .blocks l =>
      l.any (fun b =>
        match b with
        | .text s => containsStr s needle
        | .toolUse _ _ input => containsStr input needle
        | .toolResult _ content => containsStr content needle)

/-- Does any Claude message in the output mention the placeholder text? -/
def claudeOutputMentionsPlaceholder (msgs : List CMessage) : Bool :=
  msgs.any (cmessageMentions placeholderText)

/-- Spec-side: some model content carries a `function_call` with no
matching `function_response` anywhere in the history. -/
def historyHasUnpairedCall (contents : List GContent) : Bool :=
  contents.any (fun c =>
    (c.role = "model" || c.role = "assistant") &&
      c.parts.any (fun p =>
        match p with
        | .functionCall id _ _ =>
            !(contents.any (fun c2 =>
                c2.parts.any (fun q =>
                  match q with
                  | .functionResponse rid _ => rid = id
                  | _ => false)))
        | _ => false))

/-- A history with one unpaired model tool call (the awaiting-confirmation
situation of C3). -/
def exampleUnpairedHistory : List GContent :=
  [⟨"user", [.text "run it"]⟩,
   ⟨"model", [.functionCall (some "call_1") (some "sql_execute") "\x7b\x7d"]⟩]

/-! ## Theorems -/

/-- Lower-casing preserves whitespace-ness. -/
theorem isSpaceChar_lowerAscii (c : Char) : isSpaceChar (lowerAscii c) = isSpaceChar c := by
  unfold lowerAscii
  split <;> rfl

/-- A whitespace character never equals (case-insensitively) a
non-whitespace character. -/
theorem charEqCI_space_false (c d : Char) (hc : isSpaceChar c = true)
    (hd : isSpaceChar d = false) : charEqCI c d = false := by
  unfold charEqCI
  have h1 : isSpaceChar (lowerAscii c) = true := by rw [isSpaceChar_lowerAscii]; exact hc
  have h2 : isSpaceChar (lowerAscii d) = false := by rw [isSpaceChar_lowerAscii]; exact hd
  by_contra h
  simp only [Bool.not_eq_false, decide_eq_true_eq] at h
  rw [h, h2] at h1
  exact Bool.false_ne_true h1

/-- Dropping leading whitespace does not change containment of a keyword
that starts with a non-whitespace character. -/
theorem containsCIL_dropWhile (l : List Char) (d : Char) (t' : List Char)
    (hd : isSpaceChar d = false) :
    containsCIL (l.dropWhile isSpaceChar) (d :: t') = containsCIL l (d :: t') := by
  induction l with
  | nil => rfl
  | cons c l ih =>
    by_cases hc : isSpaceChar c = true
    · rw [List.dropWhile_cons, if_pos hc, ih]
      show _ = (startsWithCI (c :: l) (d :: t') || containsCIL l (d :: t'))
      rw [show startsWithCI (c :: l) (d :: t') = (charEqCI c d && startsWithCI l t') from rfl,
          charEqCI_space_false c d hc hd]
      rfl
    · rw [List.dropWhile_cons, if_neg hc]

/-- Appending trailing whitespace does not change a prefix test against a
whitespace-free keyword. -/
theorem startsWithCI_append_ws (t : List Char) (ht : t.all (fun c => !isSpaceChar c) = true)
    (m w : List Char) (hw : w.all isSpaceChar = true) :
    startsWithCI (m ++ w) t = startsWithCI m t := by
  induction t generalizing m with
  | nil =>
    show startsWithCI (m ++ w) [] = startsWithCI m []
    cases m <;> cases w <;> rfl
  | cons d t' ih =>
    have hd : isSpaceChar d = false := by
      have := List.all_eq_true.mp ht d (List.mem_cons_self d t')
      simpa using this
    have ht' : t'.all (fun c => !isSpaceChar c) = true := by
      rw [List.all_eq_true] at ht ⊢
      exact fun x hx => ht x (List.mem_cons_of_mem d hx)
    cases m with
    | nil =>
      cases w with
      | nil => rfl
      | cons a w' =>
        have ha : isSpaceChar a = true := List.all_eq_true.mp hw a (List.mem_cons_self a w')
        show (charEqCI a d && startsWithCI w' t') = false
        rw [charEqCI_space_false a d ha hd]
        rfl
    | cons c m' =>
      show (charEqCI c d && startsWithCI (m' ++ w) t') = (charEqCI c d && startsWithCI m' t')
      rw [ih ht' m']

/-- An all-whitespace string does not contain a whitespace-free nonempty
keyword. -/
theorem containsCIL_all_ws (w : List Char) (hw : w.all isSpaceChar = true)
    (d : Char) (t' : List Char) (hd : isSpaceChar d = false) :
    containsCIL w (d :: t') = false := by
  induction w with
  | nil => rfl
  | cons a w' ih =>
    have ha : isSpaceChar a = true := List.all_eq_true.mp hw a (List.mem_cons_self a w')
    have hw' : w'.all isSpaceChar = true := by
      rw [List.all_eq_true] at hw ⊢
      exact fun x hx => hw x (List.mem_cons_of_mem a hx)
    show (startsWithCI (a :: w') (d :: t') || containsCIL w' (d :: t')) = false
    rw [ih hw',
        show startsWithCI (a :: w') (d :: t') = (charEqCI a d && startsWithCI w' t') from rfl,
        charEqCI_space_false a d ha hd]
    rfl

/-- Appending trailing whitespace does not change containment of a
whitespace-free keyword. -/
theorem containsCIL_append_ws (d : Char) (t' : List Char)
    (hd : isSpaceChar d = false) (ht' : t'.all (fun c => !isSpaceChar c) = true)
    (m w : List Char) (hw : w.all isSpaceChar = true) :
    containsCIL (m ++ w) (d :: t') = containsCIL m (d :: t') := by
  have htfull : (d :: t').all (fun c => !isSpaceChar c) = true := by
    rw [List.all_eq_true] at ht' ⊢
    intro x hx
    rcases List.mem_cons.mp hx with h | h
    · subst h; simpa using hd
    · exact ht' x h
  induction m with
  | nil =>
    show containsCIL w (d :: t') = containsCIL [] (d :: t')
    rw [containsCIL_all_ws w hw d t' hd]
    rfl
  | cons c m' ih =>
    show (startsWithCI ((c :: m') ++ w) (d :: t') || containsCIL (m' ++ w) (d :: t'))
        = (startsWithCI (c :: m') (d :: t') || containsCIL m' (d :: t'))
    rw [startsWithCI_append_ws (d :: t') htfull (c :: m') w hw, ih]

/-- Decomposition: `stripChars l` plus some trailing whitespace is
`dropWhile` of the leading whitespace. -/
theorem stripChars_decomp (l : List Char) :
    ∃ w, l.dropWhile isSpaceChar = stripChars l ++ w ∧ w.all isSpaceChar = true := by
  refine ⟨((l.dropWhile isSpaceChar).reverse.takeWhile isSpaceChar).reverse, ?_, ?_⟩
  · unfold stripChars
    rw [← List.reverse_append, List.takeWhile_append_dropWhile, List.reverse_reverse]
  · rw [List.all_eq_true]
    intro a ha
    exact List.mem_takeWhile_imp (List.mem_reverse.mp ha)

/-- Containment of `WHERE` is invariant under `str.strip()`: the code
checks `'WHERE' not in sql_clean.upper()` while the claims speak of the
raw SQL string. -/
theorem containsCI_where_strip (s : String) :
    containsCI (stripString s) "WHERE" = containsCI s "WHERE" := by
  show containsCIL (stripChars s.data) ('W' :: "HERE".data)
      = containsCIL s.data ('W' :: "HERE".data)
  obtain ⟨w, hdec, hw⟩ := stripChars_decomp s.data
  have h1 : containsCIL (s.data.dropWhile isSpaceChar) ('W' :: "HERE".data)
      = containsCIL s.data ('W' :: "HERE".data) :=
    containsCIL_dropWhile s.data 'W' "HERE".data (by decide)
  rw [← h1, hdec,
      containsCIL_append_ws 'W' "HERE".data (by decide) (by decide) (stripChars s.data) w hw]

/-- Characterisation of `_requires_confirmation`'s boolean. -/
theorem requires_confirmation_check_iff (rl : RiskLevel) (op sql : String) :
    requires_confirmation_check rl op sql = true ↔
      ((rl = .high ∨ rl = .critical) ∨
       (op = "DROP" ∨ op = "TRUNCATE" ∨ op = "ALTER") ∨
       ((op = "UPDATE" ∨ op = "DELETE") ∧ containsCI sql "WHERE" = false)) := by
  unfold requires_confirmation_check
  split_ifs with h1 h2 h3
  · simp only [true_iff]
    tauto
  · simp only [true_iff]
    simp at h2
    tauto
  · simp only [true_iff]
    rw [Bool.and_eq_true] at h3
    obtain ⟨h3a, h3b⟩ := h3
    simp at h3a h3b
    tauto
  · simp only [false_iff]
    intro hcon
    rcases hcon with h | h | h
    · exact h1 h
    · apply h2
      simp
      tauto
    · obtain ⟨hop, hw⟩ := h
      apply h3
      rw [Bool.and_eq_true]
      constructor
      · simp
        tauto
      · simp [hw]

/-- C1: for every SQL string and context, `requires_confirmation` is true
iff the computed level is high or critical, or the extracted operation
type is DROP, TRUNCATE or ALTER, or the operation type is UPDATE or
DELETE and the upper-cased SQL does not contain the substring WHERE. -/
theorem c1_requires_confirmation_iff (i18n : Option I18nTable) (sql : String)
    (context : RiskContext) :
    (evaluate_sql_risk i18n sql context).requires_confirmation = true ↔
      (((evaluate_sql_risk i18n sql context).level = .high ∨
        (evaluate_sql_risk i18n sql context).level = .critical) ∨
       ((evaluate_sql_risk i18n sql context).operation_type = "DROP" ∨
        (evaluate_sql_risk i18n sql context).operation_type = "TRUNCATE" ∨
        (evaluate_sql_risk i18n sql context).operation_type = "ALTER") ∨
       (((evaluate_sql_risk i18n sql context).operation_type = "UPDATE" ∨
         (evaluate_sql_risk i18n sql context).operation_type = "DELETE") ∧
        containsCI sql "WHERE" = false)) := by
  have h := requires_confirmation_check_iff
    (calculate_risk_level (total_risk_score i18n sql context))
    (extract_operation_type (stripString sql)) (stripString sql)
  rw [containsCI_where_strip] at h
  exact h

/-- The level classifier hits exactly the 80/60/30 thresholds. -/
theorem calculate_risk_level_eq (t : Nat) :
    (calculate_risk_level t = .critical ↔ 80 ≤ t) ∧
    (calculate_risk_level t = .high ↔ 60 ≤ t ∧ t < 80) ∧
    (calculate_risk_level t = .medium ↔ 30 ≤ t ∧ t < 60) ∧
    (calculate_risk_level t = .low ↔ t < 30) := by
  unfold calculate_risk_level
  split_ifs <;> refine ⟨?_, ?_, ?_, ?_⟩ <;> simp_all <;> omega

/-- The level classifier is monotone in the score. -/
theorem calculate_risk_level_mono (s u : Nat) (h : s ≤ u) :
    levelRank (calculate_risk_level s) ≤ levelRank (calculate_risk_level u) := by
  unfold calculate_risk_level
  split_ifs <;> simp [levelRank] <;> omega

/-- C2: the score is the accumulated total clamped to 100 (hence in
[0, 100]), and the level is the monotone step function of the accumulated
score with thresholds 80/60/30. -/
theorem c2_score_level_invariant (i18n : Option I18nTable) (sql : String)
    (context : RiskContext) :
    (evaluate_sql_risk i18n sql context).score
        = min (total_risk_score i18n sql context) 100 ∧
    (evaluate_sql_risk i18n sql context).score ≤ 100 ∧
    ((evaluate_sql_risk i18n sql context).level = .critical
        ↔ 80 ≤ total_risk_score i18n sql context) ∧
    ((evaluate_sql_risk i18n sql context).level = .high
        ↔ 60 ≤ total_risk_score i18n sql context
            ∧ total_risk_score i18n sql context < 80) ∧
    ((evaluate_sql_risk i18n sql context).level = .medium
        ↔ 30 ≤ total_risk_score i18n sql context
            ∧ total_risk_score i18n sql context < 60) ∧
    ((evaluate_sql_risk i18n sql context).level = .low
        ↔ total_risk_score i18n sql context < 30) ∧
    (∀ s u : Nat, s ≤ u →
        levelRank (calculate_risk_level s) ≤ levelRank (calculate_risk_level u)) := by
  obtain ⟨hc, hh, hm, hl⟩ := calculate_risk_level_eq (total_risk_score i18n sql context)
  exact ⟨rfl, Nat.min_le_right _ _, hc, hh, hm, hl, calculate_risk_level_mono⟩

/-- The dangerous-pattern fold adds exactly 30 per matching pattern. -/
theorem foldl_dangerousStep_fst (i18n : Option I18nTable) (sql : String)
    (pats : List (String × List RItem)) (b : Nat) (rs : List String) :
    (pats.foldl (dangerousStep i18n sql) (b, rs)).1
      = b + 30 * pats.countP (fun p => reSearch p.2 sql) := by
  induction pats generalizing b rs with
  | nil => simp
  | cons p ps ih =>
    rw [List.foldl_cons, List.countP_cons]
    by_cases h : reSearch p.2 sql = true
    · rw [show dangerousStep i18n sql (b, rs) p
            = (b + 30,
               rs ++ [tr i18n "risk_dangerous_pattern" ("检测到危险操作模式: " ++ p.1)
                       [("pattern", p.1)]]) from by simp [dangerousStep, h],
          ih]
      simp [h]
      omega
    · rw [show dangerousStep i18n sql (b, rs) p = (b, rs) from by simp [dangerousStep, h], ih]
      simp [h]

/-- C4: the operation-type axis equals the claimed base weight by leading
verb, plus 30 per matching hard-coded dangerous pattern, plus 25 for an
UPDATE/DELETE without WHERE. -/
theorem c4_operation_axis (i18n : Option I18nTable) (sql : String)
    (h : extract_operation_type (stripString sql) ∈ claimVerbs) :
    (assess_operation_risk i18n (extract_operation_type (stripString sql))
        (stripString sql)).1
      = claimOperationBase (extract_operation_type (stripString sql))
        + 30 * countDangerousMatches (stripString sql)
        + (if (extract_operation_type (stripString sql) = "UPDATE"
                ∨ extract_operation_type (stripString sql) = "DELETE")
              ∧ containsCI sql "WHERE" = false
           then 25 else 0) := by
  have hw := containsCI_where_strip sql
  simp only [claimVerbs, List.mem_cons, List.not_mem_nil, or_false] at h
  unfold assess_operation_risk countDangerousMatches
  rcases h with h | h | h | h | h | h | h | h <;> rw [h] <;> dsimp only
  · rw [if_neg (by decide), if_neg (by decide), foldl_dangerousStep_fst]
    simp [operationWeightX10, claimOperationBase]
  · rw [if_neg (by decide), if_neg (by decide), foldl_dangerousStep_fst]
    simp [operationWeightX10, claimOperationBase]
  · rw [if_neg (by decide), if_neg (by decide), foldl_dangerousStep_fst]
    simp [operationWeightX10, claimOperationBase]
  · rw [if_neg (by decide), if_pos (by decide)]
    by_cases hb : containsCI (stripString sql) "WHERE" = true
    · rw [if_neg (by simp [hb])]
      rw [hw] at hb
      rw [foldl_dangerousStep_fst]
      simp [hb, operationWeightX10, claimOperationBase]
    · have hb' : containsCI (stripString sql) "WHERE" = false := by
        simpa using hb
      rw [if_pos (by simp [hb'])]
      rw [hw] at hb'
      dsimp only
      rw [foldl_dangerousStep_fst]
      simp [hb', operationWeightX10, claimOperationBase]
  · rw [if_pos (by decide)]
    dsimp only
    rw [foldl_dangerousStep_fst]
    simp [operationWeightX10, claimOperationBase]
  · rw [if_neg (by decide), if_pos (by decide)]
    by_cases hb : containsCI (stripString sql) "WHERE" = true
    · rw [if_neg (by simp [hb])]
      rw [hw] at hb
      rw [foldl_dangerousStep_fst]
      simp [hb, operationWeightX10, claimOperationBase]
    · have hb' : containsCI (stripString sql) "WHERE" = false := by
        simpa using hb
      rw [if_pos (by simp [hb'])]
      rw [hw] at hb'
      dsimp only
      rw [foldl_dangerousStep_fst]
      simp [hb', operationWeightX10, claimOperationBase]
  · rw [if_neg (by decide), if_neg (by decide), foldl_dangerousStep_fst]
    simp [operationWeightX10, claimOperationBase]
  · rw [if_pos (by decide)]
    dsimp only
    rw [foldl_dangerousStep_fst]
    simp [operationWeightX10, claimOperationBase]

/-- Witness for C4 at `"DELETE FROM users"` (verb DELETE). -/
theorem c4_operation_axis_witness :
    extract_operation_type (stripString "DELETE FROM users") ∈ claimVerbs ∧
    (assess_operation_risk none (extract_operation_type (stripString "DELETE FROM users"))
        (stripString "DELETE FROM users")).1
      = claimOperationBase (extract_operation_type (stripString "DELETE FROM users"))
        + 30 * countDangerousMatches (stripString "DELETE FROM users")
        + (if (extract_operation_type (stripString "DELETE FROM users") = "UPDATE"
                ∨ extract_operation_type (stripString "DELETE FROM users") = "DELETE")
              ∧ containsCI "DELETE FROM users" "WHERE" = false
           then 25 else 0) :=
  ⟨by decide, c4_operation_axis none "DELETE FROM users" (by decide)⟩

/-- C5 counterexample: a three-JOIN query gains `3 * 5 = 15` from JOINs,
not `5 * (3 - 2) = 5`; and `"DELETE FROM selections"` is not a SELECT yet
gains the +15 full-scan score (the check is substring containment). -/
theorem c5_counterexample :
    countJoin "SELECT * FROM a JOIN b ON x JOIN c ON y JOIN d ON z WHERE i = 1" = 3 ∧
    (assess_performance_risk none
        "SELECT * FROM a JOIN b ON x JOIN c ON y JOIN d ON z WHERE i = 1"
        emptyRiskContext).1 = 15 ∧
    ¬ (assess_performance_risk none
        "SELECT * FROM a JOIN b ON x JOIN c ON y JOIN d ON z WHERE i = 1"
        emptyRiskContext).1 = 5 * (3 - 2) ∧
    extract_operation_type "DELETE FROM selections" = "DELETE" ∧
    (assess_performance_risk none "DELETE FROM selections" emptyRiskContext).1 = 15 := by
  refine ⟨by decide, by decide, by decide, by decide, by decide⟩

/-- C5 as amended: the performance axis contributes 15 exactly when the
upper-cased SQL contains `SELECT` and does not contain `WHERE`, plus
`5 * n` (not `5 * (n - 2)`) when the number `n` of `\bJOIN\b` occurrences
exceeds two, and nothing from JOINs otherwise. -/
theorem c5_performance_axis (i18n : Option I18nTable) (sql : String)
    (context : RiskContext) :
    (assess_performance_risk i18n sql context).1
      = (if containsCI sql "WHERE" = false ∧ containsCI sql "SELECT" = true
         then 15 else 0)
        + (if countJoin sql > 2 then countJoin sql * 5 else 0) := by
  by_cases hw : containsCI sql "WHERE" = true <;>
    by_cases hs : containsCI sql "SELECT" = true <;>
      by_cases h2 : countJoin sql > 2 <;>
        simp [assess_performance_risk, hw, hs, h2]

/-- The operation-axis score does not depend on the i18n table. -/
theorem assess_operation_risk_fst_i18n (f g : Option I18nTable)
    (op sql : String) :
    (assess_operation_risk f op sql).1 = (assess_operation_risk g op sql).1 := by
  unfold assess_operation_risk
  dsimp only
  split_ifs <;> (try dsimp only) <;> rw [foldl_dangerousStep_fst, foldl_dangerousStep_fst]

/-- The large-table fold's score does not depend on the i18n table. -/
theorem foldl_largeTableStep_fst (f g : Option I18nTable) (context : RiskContext)
    (tables : List String) (af ag : Nat × List String) (h : af.1 = ag.1) :
    (tables.foldl (largeTableStep f context) af).1
      = (tables.foldl (largeTableStep g context) ag).1 := by
  induction tables generalizing af ag with
  | nil => exact h
  | cons t ts ih =>
    rw [List.foldl_cons, List.foldl_cons]
    apply ih
    unfold largeTableStep
    split_ifs <;> simp [h]

/-- The scope-axis score does not depend on the i18n table. -/
theorem assess_scope_risk_fst_i18n (f g : Option I18nTable) (sql : String)
    (tables : List String) (context : RiskContext) :
    (assess_scope_risk f sql tables context).1
      = (assess_scope_risk g sql tables context).1 := by
  unfold assess_scope_risk
  dsimp only
  apply foldl_largeTableStep_fst
  split_ifs <;> rfl

/-- The integrity-axis score does not depend on the i18n table. -/
theorem assess_integrity_risk_fst_i18n (f g : Option I18nTable) (sql : String)
    (context : RiskContext) :
    (assess_integrity_risk f sql context).1 = (assess_integrity_risk g sql context).1 := by
  unfold assess_integrity_risk
  split_ifs <;> rfl

/-- The performance-axis score does not depend on the i18n table. -/
theorem assess_performance_risk_fst_i18n (f g : Option I18nTable) (sql : String)
    (context : RiskContext) :
    (assess_performance_risk f sql context).1
      = (assess_performance_risk g sql context).1 := by
  unfold assess_performance_risk
  dsimp only
  split_ifs <;> rfl

/-- The security-axis score does not depend on the i18n table. -/
theorem assess_security_risk_fst_i18n (f g : Option I18nTable) (sql : String) :
    (assess_security_risk f sql).1 = (assess_security_risk g sql).1 := by
  unfold assess_security_risk
  split_ifs <;> rfl

/-- The accumulated score does not depend on the i18n table. -/
theorem total_risk_score_i18n (f g : Option I18nTable) (sql : String)
    (context : RiskContext) :
    total_risk_score f sql context = total_risk_score g sql context := by
  unfold total_risk_score
  dsimp only
  rw [assess_operation_risk_fst_i18n f g, assess_scope_risk_fst_i18n f g,
      assess_integrity_risk_fst_i18n f g, assess_performance_risk_fst_i18n f g,
      assess_security_risk_fst_i18n f g]

/-- C10: score, level, requires_confirmation, affected_tables and
operation_type are identical across any two i18n configurations; the
i18n table can only influence the `reasons` and `recommendations`
strings. -/
theorem c10_i18n_independence (sql : String) (context : RiskContext)
    (f g : Option I18nTable) :
    (evaluate_sql_risk f sql context).score = (evaluate_sql_risk g sql context).score ∧
    (evaluate_sql_risk f sql context).level = (evaluate_sql_risk g sql context).level ∧
    (evaluate_sql_risk f sql context).requires_confirmation
      = (evaluate_sql_risk g sql context).requires_confirmation ∧
    (evaluate_sql_risk f sql context).affected_tables
      = (evaluate_sql_risk g sql context).affected_tables ∧
    (evaluate_sql_risk f sql context).operation_type
      = (evaluate_sql_risk g sql context).operation_type := by
  have htot := total_risk_score_i18n f g sql context
  refine ⟨?_, ?_, ?_, rfl, rfl⟩
  · exact congrArg (fun t => min t 100) htot
  · exact congrArg calculate_risk_level htot
  · exact congrArg
      (fun t => requires_confirmation_check (calculate_risk_level t)
        (extract_operation_type (stripString sql)) (stripString sql)) htot

/-- Unrolling: `add_usage` folding is just mapping each call to its
record. -/
theorem recordsOfCalls_eq_map (calls : List (String × UsageData)) :
    recordsOfCalls calls
      = calls.map (fun c =>
          (⟨c.1, c.2.prompt_tokens, c.2.completion_tokens, c.2.total_tokens⟩ :
            TokenUsageRecord)) := by
  unfold recordsOfCalls
  suffices h : ∀ (init : List TokenUsageRecord),
      calls.foldl (fun st c => add_usage st c.1 c.2) init
        = init ++ calls.map (fun c =>
            (⟨c.1, c.2.prompt_tokens, c.2.completion_tokens, c.2.total_tokens⟩ :
              TokenUsageRecord)) by
    rw [h []]
    rfl
  induction calls with
  | nil => intro init; simp
  | cons c cs ih =>
    intro init
    rw [List.foldl_cons, List.map_cons, ih]
    unfold add_usage
    simp

/-- Folding one record into `by_model` adds its reported total to the sum
of per-model totals. -/
theorem bumpModel_sum (acc : List (String × ModelStats)) (r : TokenUsageRecord) :
    ((bumpModel acc r).map (fun p => p.2.total_tokens)).sum
      = (acc.map (fun p => p.2.total_tokens)).sum + r.total_tokens.getD 0 := by
  induction acc with
  | nil => simp [bumpModel]
  | cons p ps ih =>
    unfold bumpModel
    by_cases h : p.1 = r.model
    · rw [if_pos h]
      simp
      omega
    · rw [if_neg h]
      simp [ih]
      omega

/-- Summing per-model totals over the grouping fold equals the plain sum
of reported totals. -/
theorem foldl_bumpModel_sum (records : List TokenUsageRecord)
    (acc : List (String × ModelStats)) :
    ((records.foldl bumpModel acc).map (fun p => p.2.total_tokens)).sum
      = (acc.map (fun p => p.2.total_tokens)).sum
        + (records.map (fun r => r.total_tokens.getD 0)).sum := by
  induction records generalizing acc with
  | nil => simp
  | cons r rs ih =>
    rw [List.foldl_cons, ih, bumpModel_sum]
    simp
    omega

/-- Splitting the prompt+completion sum. -/
theorem sum_map_add_tokens (l : List TokenUsageRecord) :
    (l.map (fun r => r.prompt_tokens.getD 0 + r.completion_tokens.getD 0)).sum
      = (l.map (fun r => r.prompt_tokens.getD 0)).sum
        + (l.map (fun r => r.completion_tokens.getD 0)).sum := by
  induction l with
  | nil => simp
  | cons r rs ih =>
    simp [ih]
    omega

/-- The prompt/completion/total identity of `get_summary`, for any record
list. -/
theorem get_summary_prompt_completion (records : List TokenUsageRecord) :
    (get_summary records).total_prompt_tokens
        + (get_summary records).total_completion_tokens
      = (get_summary records).total_tokens := by
  unfold get_summary
  split_ifs <;> rfl

/-- When each record's reported total is consistent, per-model totals sum
to the grand total. -/
theorem get_summary_by_model_sum (records : List TokenUsageRecord)
    (h : ∀ r ∈ records, r.total_tokens.getD 0
        = r.prompt_tokens.getD 0 + r.completion_tokens.getD 0) :
    ((get_summary records).by_model.map (fun p => p.2.total_tokens)).sum
      = (get_summary records).total_tokens := by
  unfold get_summary
  split_ifs with he
  · simp
  · dsimp only
    rw [foldl_bumpModel_sum records []]
    rw [List.map_congr_left h, sum_map_add_tokens]
    simp

/-- C6 counterexample: one `add_usage` call whose `total_tokens` field
(100) differs from prompt+completion (3) makes the per-model totals sum
to 100 while the grand total is 3. -/
theorem c6_counterexample :
    (get_summary (recordsOfCalls [("m", ⟨some 1, some 2, some 100⟩)])).total_prompt_tokens
        + (get_summary (recordsOfCalls [("m", ⟨some 1, some 2, some 100⟩)])).total_completion_tokens
      = (get_summary (recordsOfCalls [("m", ⟨some 1, some 2, some 100⟩)])).total_tokens ∧
    ((get_summary (recordsOfCalls [("m", ⟨some 1, some 2, some 100⟩)])).by_model.map
        (fun p => p.2.total_tokens)).sum = 100 ∧
    (get_summary (recordsOfCalls [("m", ⟨some 1, some 2, some 100⟩)])).total_tokens = 3 ∧
    ¬ ((get_summary (recordsOfCalls [("m", ⟨some 1, some 2, some 100⟩)])).by_model.map
        (fun p => p.2.total_tokens)).sum
      = (get_summary (recordsOfCalls [("m", ⟨some 1, some 2, some 100⟩)])).total_tokens := by
  refine ⟨by decide, by decide, by decide, by decide⟩

/-- C6 as amended: for every sequence of `add_usage` calls,
`total_prompt + total_completion = total_tokens` always holds; the sum of
per-model `total_tokens` equals the grand total whenever each call's
reported `total_tokens` (None/missing as zero) equals its prompt plus
completion tokens — the per-model entries accumulate the reported
`total_tokens` field, which `get_summary` never reconciles. -/
theorem c6_summary_invariant (calls : List (String × UsageData)) :
    (get_summary (recordsOfCalls calls)).total_prompt_tokens
        + (get_summary (recordsOfCalls calls)).total_completion_tokens
      = (get_summary (recordsOfCalls calls)).total_tokens ∧
    ((∀ c ∈ calls, c.2.total_tokens.getD 0
        = c.2.prompt_tokens.getD 0 + c.2.completion_tokens.getD 0) →
      ((get_summary (recordsOfCalls calls)).by_model.map
          (fun p => p.2.total_tokens)).sum
        = (get_summary (recordsOfCalls calls)).total_tokens) := by
  refine ⟨get_summary_prompt_completion _, fun h => ?_⟩
  apply get_summary_by_model_sum
  intro r hr
  rw [recordsOfCalls_eq_map] at hr
  obtain ⟨c, hc, rfl⟩ := List.mem_map.mp hr
  exact h c hc

/-- Witness for C6 at one consistent `add_usage` call. -/
theorem c6_summary_invariant_witness :
    (get_summary (recordsOfCalls [("m", ⟨some 1, some 2, some 3⟩)])).total_prompt_tokens
        + (get_summary (recordsOfCalls [("m", ⟨some 1, some 2, some 3⟩)])).total_completion_tokens
      = (get_summary (recordsOfCalls [("m", ⟨some 1, some 2, some 3⟩)])).total_tokens ∧
    ((get_summary (recordsOfCalls [("m", ⟨some 1, some 2, some 3⟩)])).by_model.map
        (fun p => p.2.total_tokens)).sum
      = (get_summary (recordsOfCalls [("m", ⟨some 1, some 2, some 3⟩)])).total_tokens :=
  ⟨(c6_summary_invariant [("m", ⟨some 1, some 2, some 3⟩)]).1,
   (c6_summary_invariant [("m", ⟨some 1, some 2, some 3⟩)]).2 (by decide)⟩

/-- C8 counterexample: `generate_json` is not retried at all in the
OpenAI and Claude services, and the Gemini `generate_json` retry uses an
initial delay of 3000 ms, not 2000 ms. -/
theorem c8_counterexample :
    openaiJsonRetry = none ∧ claudeJsonRetry = none ∧
    geminiJsonRetry = some ⟨5, 3000, 20000⟩ := by
  refine ⟨rfl, rfl, rfl⟩

/-- C8 as amended: all three providers wrap stream starts in retry with
exactly 3 attempts, 2 s initial delay and a 10 s cap (within the claimed
3–5 / 2 s / 10–20 s envelope); `generate_json` is retried only by the
Gemini provider, with 5 attempts, 3 s initial delay and a 20 s cap, while
the OpenAI and Claude providers issue a single unretried call. -/
theorem c8_retry_configuration :
    geminiStreamRetry = some ⟨3, 2000, 10000⟩ ∧
    openaiStreamRetry = some ⟨3, 2000, 10000⟩ ∧
    claudeStreamRetry = some ⟨3, 2000, 10000⟩ ∧
    ((
      [geminiStreamRetry, openaiStreamRetry, claudeStreamRetry].filterMap id).all
        (fun r => 3 ≤ r.max_attempts && r.max_attempts ≤ 5
          && r.initial_delay_ms = 2000
          && 10000 ≤ r.max_delay_ms && r.max_delay_ms ≤ 20000) = true) ∧
    geminiJsonRetry = some ⟨5, 3000, 20000⟩ ∧
    openaiJsonRetry = none ∧
    claudeJsonRetry = none := by
  refine ⟨rfl, rfl, rfl, by decide, rfl, rfl, rfl⟩

/-- C9: for every outcome of the underlying API call and every behaviour
of JSON parsing, `generate_json` of each provider returns (never raises);
on an API failure `e`, and likewise on a parse failure `e` of a
successful response, all three return the object with
`next_speaker = "user"` and `reasoning = "Error in JSON generation: e"`. -/
theorem c9_generate_json_fallback (e : String)
    (parse : String → Except String JsonValue) (t : String) :
    geminiGenerateJson parse (.error e) = jsonErrorFallback e ∧
    openaiGenerateJson parse (.error e) = jsonErrorFallback e ∧
    claudeGenerateJson parse (.error e) = jsonErrorFallback e ∧
    geminiGenerateJson (fun _ => .error e) (.ok t) = jsonErrorFallback e ∧
    openaiGenerateJson (fun _ => .error e) (.ok t) = jsonErrorFallback e ∧
    claudeGenerateJson (fun _ => .error e) (.ok t) = jsonErrorFallback e ∧
    jsonGet (jsonErrorFallback e) "next_speaker" = some (.str "user") ∧
    jsonGet (jsonErrorFallback e) "reasoning"
      = some (.str ("Error in JSON generation: " ++ e)) := by
  refine ⟨rfl, rfl, rfl, rfl, rfl, ?_, ?_, ?_⟩
  · unfold claudeGenerateJson
    dsimp only
    cases extractBraces t <;> rfl
  · rfl
  · rfl

/-- Behaviour of the polling loop: it runs at most `fuel` iterations; it
reports completion exactly when it saw a snapshot with no active tool,
having seen active tools at every earlier tick; on timeout it has used
all its fuel. -/
theorem pollLoop_spec (snap : Nat → List String) (fuel tick : Nat) :
    tick ≤ (pollLoop snap tick fuel).1 ∧
    (pollLoop snap tick fuel).1 ≤ tick + fuel ∧
    ((pollLoop snap tick fuel).2 = true →
      hasActiveTools (snap (pollLoop snap tick fuel).1) = false) ∧
    ((pollLoop snap tick fuel).2 = false →
      (pollLoop snap tick fuel).1 = tick + fuel) ∧
    (∀ t, tick ≤ t → t < (pollLoop snap tick fuel).1 →
      hasActiveTools (snap t) = true) := by
  induction fuel generalizing tick with
  | zero =>
    refine ⟨Nat.le_refl _, Nat.le_refl _, ?_, fun _ => rfl, ?_⟩
    · intro h
      exact absurd h (by simp [pollLoop])
    · intro t h1 h2
      exact absurd (Nat.lt_of_le_of_lt h1 h2) (Nat.lt_irrefl _)
  | succ n ih =>
    have hred : pollLoop snap tick (n + 1)
        = if hasActiveTools (snap tick) = true then pollLoop snap (tick + 1) n
          else (tick, true) := rfl
    by_cases h : hasActiveTools (snap tick) = true
    · rw [hred, if_pos h]
      obtain ⟨i1, i2, i3, i4, i5⟩ := ih (tick + 1)
      refine ⟨by omega, by omega, i3, fun hf => by have := i4 hf; omega, ?_⟩
      intro t h1 h2
      rcases Nat.eq_or_lt_of_le h1 with rfl | h1'
      · exact h
      · exact i5 t h1' h2
    · rw [hred, if_neg h]
      refine ⟨Nat.le_refl _, by omega, ?_, ?_, ?_⟩
      · intro _
        simpa using h
      · intro hfalse
        exact absurd hfalse (by simp)
      · intro t h1 h2
        exact absurd (Nat.lt_of_le_of_lt h1 h2) (Nat.lt_irrefl _)

/-- C7 counterexample: with a GPT model and a scheduler snapshot that
always reports an executing tool, the polling deadline expires (51 polls
of 100 ms — the float-accumulated loop runs one iteration past the
nominal 50) and the bridge prompt is still sent without ever observing
the batch in a terminal state. -/
theorem c7_counterexample :
    needsStrictPairing "gpt-4.1" = true ∧
    (continue_after_confirmation "gpt-4.1" (fun _ => ["executing"])).bridgeSent = true ∧
    (continue_after_confirmation "gpt-4.1" (fun _ => ["executing"])).observedAllInactive
      = false ∧
    (continue_after_confirmation "gpt-4.1" (fun _ => ["executing"])).waitedTicks
      = maxPolls := by
  refine ⟨by decide, by decide, by decide, by decide⟩

/-- C7 as amended: for strict-pairing model names the client polls the
scheduler at a 100 ms cadence until the float-accumulated `waited`
reaches the 5 s bound — 51 polls (about 5.1 s), since fifty binary64
additions of 0.1 sum to just under 5.0; it stops early exactly when a
snapshot shows no call in an active
(`validating`/`scheduled`/`executing`) state, but when the deadline
expires the bridge prompt is sent anyway; for other (tolerant) model
names a fixed delay from `_get_model_wait_time` is used instead, and the
bridge prompt is then sent unconditionally. -/
theorem c7_confirmation_resume (current_model : String)
    (snap : Nat → List String) :
    (needsStrictPairing current_model = true →
      (continue_after_confirmation current_model snap).bridgeSent = true ∧
      (continue_after_confirmation current_model snap).waitedTicks ≤ maxPolls ∧
      ((continue_after_confirmation current_model snap).observedAllInactive = true →
        hasActiveTools
          (snap (continue_after_confirmation current_model snap).waitedTicks) = false) ∧
      ((continue_after_confirmation current_model snap).observedAllInactive = false →
        (continue_after_confirmation current_model snap).waitedTicks = maxPolls) ∧
      (∀ t, t < (continue_after_confirmation current_model snap).waitedTicks →
        hasActiveTools (snap t) = true)) ∧
    (needsStrictPairing current_model = false →
      (continue_after_confirmation current_model snap).bridgeSent = true ∧
      (continue_after_confirmation current_model snap).fixedDelayMs
        = getModelWaitTimeMs current_model) ∧
    pollIntervalMs = 100 ∧ maxWaitMs = 5000 ∧ maxPolls = 51 := by
  constructor
  · intro h
    have hred : continue_after_confirmation current_model snap
        = ⟨true, (pollLoop snap 0 maxPolls).1, (pollLoop snap 0 maxPolls).2, 0, true⟩ := by
      unfold continue_after_confirmation
      rw [if_pos h]
    obtain ⟨p1, p2, p3, p4, p5⟩ := pollLoop_spec snap maxPolls 0
    rw [hred]
    dsimp only
    exact ⟨rfl, by omega, p3, fun hf => by have := p4 hf; omega,
           fun t ht => p5 t (Nat.zero_le t) ht⟩
  · constructor
    · intro h
      have hred : continue_after_confirmation current_model snap
          = ⟨false, 0, false, getModelWaitTimeMs current_model, true⟩ := by
        unfold continue_after_confirmation
        rw [if_neg (by simp [h])]
      rw [hred]
      exact ⟨rfl, rfl⟩
    · exact ⟨rfl, rfl, rfl⟩

/-- Witness for C7: a strict model with an immediately quiet scheduler
(poll observes no active tool at tick 0), and a tolerant model using the
fixed 0.5 s delay. -/
theorem c7_confirmation_resume_witness :
    needsStrictPairing "gpt-4.1" = true ∧
    (continue_after_confirmation "gpt-4.1" (fun _ => ([] : List String))).waitedTicks
      ≤ maxPolls ∧
    hasActiveTools ((fun _ => ([] : List String))
        (continue_after_confirmation "gpt-4.1"
          (fun _ => ([] : List String))).waitedTicks) = false ∧
    needsStrictPairing "gemini-2.5-flash" = false ∧
    (continue_after_confirmation "gemini-2.5-flash"
        (fun _ => ([] : List String))).fixedDelayMs
      = getModelWaitTimeMs "gemini-2.5-flash" :=
  ⟨by decide,
   ((c7_confirmation_resume "gpt-4.1" (fun _ => ([] : List String))).1 (by decide)).2.1,
   (((c7_confirmation_resume "gpt-4.1" (fun _ => ([] : List String))).1
      (by decide)).2.2.1 (by decide)),
   by decide,
   ((c7_confirmation_resume "gemini-2.5-flash" (fun _ => ([] : List String))).2.1
      (by decide)).2⟩

/-- Prepending tool-role messages preserves the pairing property. -/
theorem allCallsAnswered_prepend_tools (P L : List OAIMessage)
    (hP : ∀ m ∈ P, m.role = "tool") (hL : allCallsAnswered L = true) :
    allCallsAnswered (P ++ L) = true := by
  induction P with
  | nil => simpa using hL
  | cons p ps ih =>
    have hp : p.role = "tool" := hP p (List.mem_cons_self p ps)
    have hps : ∀ m ∈ ps, m.role = "tool" := fun m hm => hP m (List.mem_cons_of_mem p hm)
    rw [List.cons_append]
    simp only [allCallsAnswered]
    rw [Bool.and_eq_true]
    constructor
    · have hfa : isAssistantWithCalls p = false := by
        simp [isAssistantWithCalls, hp]
      simp [hfa]
    · exact ih hps

/-- The placeholder pass establishes the pairing property on any input:
every assistant tool-call message in its output is followed by a tool
message for each of its call ids. -/
theorem addPlaceholders_allCallsAnswered (l : List OAIMessage) :
    allCallsAnswered (addPlaceholders l) = true := by
  induction l with
  | nil => rfl
  | cons m rest ih =>
    by_cases hm : isAssistantWithCalls m = true
    · rw [show addPlaceholders (m :: rest)
            = if isAssistantWithCalls m = true then
                m :: (placeholdersFor m.tool_calls rest.head? ++ addPlaceholders rest)
              else m :: addPlaceholders rest from rfl,
          if_pos hm]
      simp only [allCallsAnswered]
      rw [Bool.and_eq_true]
      constructor
      · rw [if_pos hm, List.all_eq_true]
        intro tc htc
        by_cases hn : nextAnswers rest.head? tc.id = true
        · cases rest with
          | nil => simp [nextAnswers] at hn
          | cons n rest' =>
            have hn' : (n.role = "tool" && n.tool_call_id = some tc.id) = true := hn
            have hadd : ∃ Y, addPlaceholders (n :: rest') = n :: Y := by
              rw [show addPlaceholders (n :: rest')
                    = if isAssistantWithCalls n = true then
                        n :: (placeholdersFor n.tool_calls rest'.head?
                              ++ addPlaceholders rest')
                      else n :: addPlaceholders rest' from rfl]
              by_cases h2 : isAssistantWithCalls n = true
              · rw [if_pos h2]
                exact ⟨_, rfl⟩
              · rw [if_neg h2]
                exact ⟨_, rfl⟩
            obtain ⟨Y, hY⟩ := hadd
            rw [hY]
            unfold answeredIn
            rw [List.any_append, Bool.or_eq_true]
            right
            rw [List.any_cons, Bool.or_eq_true]
            left
            exact hn'
        · have hmem : placeholderMsg tc.id ∈ placeholdersFor m.tool_calls rest.head? := by
            unfold placeholdersFor
            apply List.mem_filterMap.mpr
            refine ⟨tc, htc, ?_⟩
            rw [if_neg hn]
          unfold answeredIn
          rw [List.any_append, Bool.or_eq_true]
          left
          apply List.any_eq_true.mpr
          exact ⟨placeholderMsg tc.id, hmem, by simp [placeholderMsg]⟩
      · apply allCallsAnswered_prepend_tools
        · intro x hx
          unfold placeholdersFor at hx
          obtain ⟨tc, _, hsome⟩ := List.mem_filterMap.mp hx
          by_cases hh : nextAnswers rest.head? tc.id = true
          · rw [if_pos hh] at hsome
            cases hsome
          · rw [if_neg hh] at hsome
            cases hsome
            rfl
        · exact ih
    · rw [show addPlaceholders (m :: rest)
            = if isAssistantWithCalls m = true then
                m :: (placeholdersFor m.tool_calls rest.head? ++ addPlaceholders rest)
              else m :: addPlaceholders rest from rfl,
          if_neg hm]
      simp only [allCallsAnswered]
      rw [Bool.and_eq_true]
      exact ⟨by rw [if_neg hm], ih⟩

/-- C3 counterexample: a history with an unpaired model tool call, whose
Claude conversion contains no message mentioning the placeholder text
"Tool execution pending or awaiting confirmation" anywhere. -/
theorem c3_counterexample :
    historyHasUnpairedCall exampleUnpairedHistory = true ∧
    claudeOutputMentionsPlaceholder (gemini_to_claude_messages exampleUnpairedHistory)
      = false := by
  refine ⟨by decide, by decide⟩

/-- C3 as amended: only the OpenAI conversion synthesizes the placeholder
tool result.  For every history and system instruction, every assistant
tool-call message in `_gemini_to_openai_messages`'s output is followed by
a tool message for each call id (for an unpaired call this is the
placeholder "Tool execution pending or awaiting confirmation", inserted
right after the assistant message, as the concrete run shows); the Claude
conversion synthesizes no such placeholder (it only adds
"Continue the conversation." / "Please continue." user messages). -/
theorem c3_placeholder_synthesis :
    (∀ (contents : List GContent) (system_instruction : Option String),
      allCallsAnswered (gemini_to_openai_messages contents system_instruction) = true) ∧
    gemini_to_openai_messages exampleUnpairedHistory none
      = [oaiMsg "user" "run it",
         ⟨"assistant", "", [⟨"call_1", "sql_execute", "\x7b\x7d"⟩], none⟩,
         placeholderMsg "call_1"] ∧
    claudeOutputMentionsPlaceholder (gemini_to_claude_messages exampleUnpairedHistory)
      = false := by
  refine ⟨?_, by decide, by decide⟩
  intro contents system_instruction
  unfold gemini_to_openai_messages
  exact addPlaceholders_allCallsAnswered _
